import Mathlib

/-!
A shallow embedding of the resumable HTTP downloader in `src/downloader.rs`
and `src/errors.rs` of the `mmynk/downer` repository, together with proofs
about its resume/continuation protocol, streaming-write loop, cancellation
behaviour, progress rendering and error handling.

Modelling conventions:
* Rust `u64` values (file sizes, byte counters, content lengths) are
  modelled as `Nat`.  All comparisons and additions in the source are
  ordinary `u64` arithmetic; cumulative byte counts in any execution of the
  program stay far below `2 ^ 64` (the parser for the content-length header
  rejects values `≥ 2 ^ 64`, and a file of `2 ^ 64` bytes cannot exist), so
  `Nat` arithmetic agrees with the machine arithmetic on every reachable
  state and overflow wrapping is irrelevant here.
* Byte strings (header values, file contents, body chunks) are `List Nat`
  (one `Nat` per byte); Rust `&str`/`String` values are `List Char` or
  `String`.
* The external world seen by one invocation of `download()` is an `Env`:
  the current on-disk file (if any), the server's response to a plain GET
  and to a range GET at a given offset, the cancellation flag (as the poll
  index from which `is_cancelled()` returns true — the token is one-shot,
  so this is exactly a monotone boolean signal), and a fault-injection
  record for the fallible filesystem calls.
* An invocation produces a `Trace`: the `Result`, the ordered list of
  outbound HTTP requests actually sent, the final on-disk file, the
  progress output events, and counters of stream reads (`stream.next()`
  calls) and chunk writes (`write_all` calls).
* `write_all` is modelled as atomic (a chunk is appended entirely or not
  at all), matching the granularity at which the source checks
  cancellation and reports errors.
* The f64 arithmetic of `update_progress` is modelled by exact rational
  arithmetic (`ℚ`); at the concrete inputs used in the theorems below the
  f64 computation is exact, and for `0 < d ≤ t` the f64 value of
  `(d/t*100.0)/100.0*30.0` never exceeds `30.0` (each step is a monotone
  rounding of a quantity `≤` a representable bound), so the `≤ 30` /
  `> 30` classification proved here agrees with the floating-point code.
* `println!` / logging: only the progress output of the downloader is
  modelled, as abstract events — one `OutEvent.progress` per
  `update_progress` call and one `OutEvent.newline` for the bare
  `println!()` after the fresh-download loop (src/downloader.rs:103).
-/

namespace Downer

/-- `src/errors.rs`: the error enum.  The wrapped `reqwest` / `std::io`
error payloads are abstracted away; Rust's `Error::IO` is spelled
`Error.ioError` here. -/
inductive Error where
  | DirectoryNotFound (s : String)
  | RequestFailed
  | ioError
  | InvalidHeaderValue
  deriving DecidableEq, Repr

instance {ε α : Type} [DecidableEq ε] [DecidableEq α] : DecidableEq (Except ε α) :=
  fun x y =>
    match x, y with
    | Except.ok a, Except.ok b =>
      if h : a = b then isTrue (by rw [h])
      else isFalse (by intro hh; cases hh; exact h rfl)
    | Except.error a, Except.error b =>
      if h : a = b then isTrue (by rw [h])
      else isFalse (by intro hh; cases hh; exact h rfl)
    | Except.ok _, Except.error _ => isFalse (by intro hh; cases hh)
    | Except.error _, Except.ok _ => isFalse (by intro hh; cases hh)

/-- One body chunk as yielded by `stream.next()`: either bytes or a
network-layer error (which `chunk?` converts to `Error::RequestFailed`). -/
abbrev Chunk := Except Unit (List Nat)

/-- An HTTP response: the raw bytes of the `content-length` header (if
present) and the body chunk stream. -/
structure NetResponse where
  contentLength : Option (List Nat)
  chunks : List Chunk
  deriving DecidableEq

/-- One outbound HTTP request: a plain GET, or a GET carrying a
`Range: bytes=<offset>-` header. -/
inductive Request where
  | plain
  | range (offset : Nat)
  deriving DecidableEq, Repr

/-- Progress output events: one `progress` event per `update_progress`
call (carrying the counters it was called with), and `newline` for the
bare `println!()` after the fresh-download loop. -/
inductive OutEvent where
  | progress (name : String) (downloaded total : Nat)
  | newline
  deriving DecidableEq, Repr

/-- Fault injection for the fallible filesystem calls of one invocation,
in source order: `File::open` / `metadata` in `download_file`
(src/downloader.rs:61-62), `File::create` in `start_download` (line 88),
`File::open` / `metadata` / append-mode open in `continue_download`
(lines 109-110, 120), and `write_all` failing at a given loop iteration. -/
structure FsFaults where
  openFail : Bool
  metadataFail : Bool
  createFail : Bool
  openFail2 : Bool
  metadataFail2 : Bool
  appendOpenFail : Bool
  writeFailAt : Option Nat
  deriving DecidableEq, Repr

/-- No filesystem fault. -/
def noFaults : FsFaults := ⟨false, false, false, false, false, false, none⟩

/-- The external world of one `download()` invocation. `rangeResp` maps a
range offset to the server's response, so the two range requests the code
may send at the same offset observe the same server state. `cancelFrom`
is the poll index from which `is_cancelled()` reports true. -/
structure Env where
  file : Option (List Nat)
  outputPath : String
  plainResp : Except Unit NetResponse
  rangeResp : Nat → Except Unit NetResponse
  cancelFrom : Option Nat
  faults : FsFaults

/-- Observable outcome of one invocation. -/
structure Trace where
  result : Except Error Unit
  requests : List Request
  file : Option (List Nat)
  out : List OutEvent
  reads : Nat
  writes : Nat
  deriving DecidableEq, Repr

/-- Outcome of one run of the streaming-write loop. -/
structure LoopOut where
  result : Except Error Unit
  downloaded : Nat
  file : List Nat
  out : List OutEvent
  reads : Nat
  writes : Nat
  deriving DecidableEq, Repr

/-- `token.is_cancelled()` at the `k`-th poll: the one-shot token is set
from poll `c` onward. -/
def is_cancelled (cancelFrom : Option Nat) (k : Nat) : Bool :=
  match cancelFrom with
  | none => false
  | some c => c ≤ k

/-- Byte validity for `http::HeaderValue::from_str` (reqwest re-export):
a byte is legal iff it is horizontal tab or in `32..` excluding 127. -/
def headerCharValid (c : Char) : Bool :=
  c == '\t' || (32 ≤ c.toNat && c.toNat ≠ 127)

/-- `HeaderValue::from_str`: succeeds (returning the value) iff every
character is legal. -/
def headerValueFromStr (s : List Char) : Option (List Char) :=
  if s.all headerCharValid then some s else none

/-- The string `format!("bytes={}-", file_size)` (src/downloader.rs:66,114);
`Nat.toDigits 10` is the decimal rendering of Rust's `u64` Display. -/
def range_string (fileSize : Nat) : List Char :=
  "bytes=".toList ++ Nat.toDigits 10 fileSize ++ ['-']

/-- `HeaderValue::to_str`: yields a `&str` iff every byte is visible
ASCII or tab (`b == 9 || 32 ≤ b < 127`). -/
def to_str (bs : List Nat) : Option (List Char) :=
  if bs.all (fun b => b == 9 || (32 ≤ b && b < 127)) then
    some (bs.map Char.ofNat)
  else
    none

/-- Rust `str::parse::<u64>`: optional leading `'+'`, then one or more
decimal digits, rejecting values `≥ 2 ^ 64` (overflow). -/
def parseU64 (s : List Char) : Option Nat :=
  match s with
  | [] => none
  | c :: rest =>
    let ds := if c = '+' then rest else s
    if ds = [] then none
    else if ds.all Char.isDigit then
      let v := ds.foldl (fun a d => a * 10 + (d.toNat - 48)) 0
      if v < 2 ^ 64 then some v else none
    else none

/-- `get_file_size` (src/downloader.rs:158-165):
`content_length.to_str().unwrap_or("0").parse::<u64>().unwrap_or(0)`,
and `0` when the header is absent. -/
def get_file_size (resp : NetResponse) : Nat :=
  match resp.contentLength with
  | some cl => (parseU64 ((to_str cl).getD ['0'])).getD 0
  | none => 0

/-- `output_path.split('/').last().unwrap_or(output_path)`
(src/downloader.rs:91,122). -/
def file_name (path : String) : String :=
  (path.splitOn "/").getLastD path

/-- `update_progress` (src/downloader.rs:138-156) as an output event; the
numeric bar computation it performs is modelled by `filled_width` /
`empty_width` below. -/
def update_progress (name : String) (downloaded total : Nat) : OutEvent :=
  OutEvent.progress name downloaded total

/-- The filled bar width of `update_progress` for `total_bytes ≠ 0`
(src/downloader.rs:143-145): `progress = d/t * 100.0`;
`filled_width = (progress / 100.0 * 30.0) as usize` (truncation toward
zero of a non-negative value, i.e. floor). -/
def filled_width (downloaded total : Nat) : Nat :=
  (Int.floor ((downloaded : ℚ) / (total : ℚ) * 100 / 100 * 30)).toNat

/-- The blank-padding width `bar_width - filled_width`
(src/downloader.rs:146), as a mathematical integer: the `usize`
subtraction underflows exactly when this value is negative. -/
def empty_width (downloaded total : Nat) : Int :=
  30 - (filled_width downloaded total : Int)

/-- The streaming-write loop shared verbatim by `start_download`
(src/downloader.rs:94-102) and `continue_download` (lines 125-133):
pull the next chunk (`stream.next()`, counted in `reads`); if the token
is cancelled, break out (the in-flight chunk is dropped unwritten);
propagate a chunk error as `RequestFailed`; propagate a write failure as
an io error; otherwise append the chunk to the file, add its length to
`downloaded_bytes` and emit a progress update.  `k` is the poll index,
`d` the current `downloaded_bytes`, `f` the current file content. -/
def stream_loop (cancel writeFailAt : Option Nat) (name : String)
    (total : Nat) :
    List Chunk → Nat → Nat → List Nat → LoopOut
  | [], _, d, f => ⟨Except.ok (), d, f, [], 1, 0⟩
  | c :: rest, k, d, f =>
    if is_cancelled cancel k then
      ⟨Except.ok (), d, f, [], 1, 0⟩
    else
      match c with
      | Except.error _ => ⟨Except.error Error.RequestFailed, d, f, [], 1, 0⟩
      | Except.ok b =>
        if writeFailAt = some k then
          ⟨Except.error Error.ioError, d, f, [], 1, 0⟩
        else
          let r := stream_loop cancel writeFailAt name total rest (k + 1)
            (d + b.length) (f ++ b)
          ⟨r.result, r.downloaded, r.file,
            update_progress name (d + b.length) total :: r.out,
            r.reads + 1, r.writes + 1⟩

/-- `start_download` (src/downloader.rs:85-106): plain GET, read the
declared total, `File::create` (truncating), stream to the file from
offset 0, then `println!()` one trailing newline — skipped when the loop
aborted through `?`. -/
def start_download (env : Env) : Trace :=
  match env.plainResp with
  | Except.error _ => ⟨Except.error Error.RequestFailed, [Request.plain], env.file, [], 0, 0⟩
  | Except.ok resp =>
    let total := get_file_size resp
    if env.faults.createFail then
      ⟨Except.error Error.ioError, [Request.plain], env.file, [], 0, 0⟩
    else
      let name := file_name env.outputPath
      let r := stream_loop env.cancelFrom env.faults.writeFailAt name total
        resp.chunks 0 0 []
      match r.result with
      | Except.ok _ =>
        ⟨Except.ok (), [Request.plain], some r.file, r.out ++ [OutEvent.newline],
          r.reads, r.writes⟩
      | Except.error e =>
        ⟨Except.error e, [Request.plain], some r.file, r.out, r.reads, r.writes⟩

/-- `continue_download` (src/downloader.rs:108-136): re-open the file and
re-read its length, build the `Range` header again, send a second range
GET, compute `total = declared + file_size`, open the file in append
mode, stream from `downloaded_bytes = file_size`.  No trailing newline
is printed after this loop. -/
def continue_download (env : Env) : Trace :=
  match env.file with
  | none => ⟨Except.error Error.ioError, [], none, [], 0, 0⟩
  | some f =>
    if env.faults.openFail2 then ⟨Except.error Error.ioError, [], some f, [], 0, 0⟩
    else if env.faults.metadataFail2 then ⟨Except.error Error.ioError, [], some f, [], 0, 0⟩
    else
      match headerValueFromStr (range_string f.length) with
      | none => ⟨Except.error Error.InvalidHeaderValue, [], some f, [], 0, 0⟩
      | some _ =>
        match env.rangeResp f.length with
        | Except.error _ =>
          ⟨Except.error Error.RequestFailed, [Request.range f.length], some f, [], 0, 0⟩
        | Except.ok resp =>
          let total := get_file_size resp + f.length
          if env.faults.appendOpenFail then
            ⟨Except.error Error.ioError, [Request.range f.length], some f, [], 0, 0⟩
          else
            let name := file_name env.outputPath
            let r := stream_loop env.cancelFrom env.faults.writeFailAt name total
              resp.chunks 0 f.length f
            match r.result with
            | Except.ok _ =>
              ⟨Except.ok (), [Request.range f.length], some r.file, r.out,
                r.reads, r.writes⟩
            | Except.error e =>
              ⟨Except.error e, [Request.range f.length], some r.file, r.out,
                r.reads, r.writes⟩

/-- `download_file` (src/downloader.rs:55-83), the body of
`Downloader::download()`: no file ⇒ fresh download; otherwise read the
length `L`, send the range probe, compute `total = declared + L`;
`total == L` ⇒ already downloaded, return Ok consuming nothing;
`L > total || L == 0` ⇒ restart from scratch; otherwise continue.  The
probe's body is dropped unconsumed in the last two cases. -/
def download_file (env : Env) : Trace :=
  match env.file with
  | none => start_download env
  | some f =>
    if env.faults.openFail then ⟨Except.error Error.ioError, [], some f, [], 0, 0⟩
    else if env.faults.metadataFail then ⟨Except.error Error.ioError, [], some f, [], 0, 0⟩
    else
      match headerValueFromStr (range_string f.length) with
      | none => ⟨Except.error Error.InvalidHeaderValue, [], some f, [], 0, 0⟩
      | some _ =>
        match env.rangeResp f.length with
        | Except.error _ =>
          ⟨Except.error Error.RequestFailed, [Request.range f.length], some f, [], 0, 0⟩
        | Except.ok resp =>
          let total := get_file_size resp + f.length
          if total = f.length then
            ⟨Except.ok (), [Request.range f.length], some f, [], 0, 0⟩
          else if f.length > total ∨ f.length = 0 then
            let r := start_download env
            { r with requests := Request.range f.length :: r.requests }
          else
            let r := continue_download env
            { r with requests := Request.range f.length :: r.requests }

/-- `Downloader::download()` (src/downloader.rs:46-48) delegates to
`download_file`. -/
def download (env : Env) : Trace := download_file env

/-- Concatenation of the payloads of the successful chunks of a stream
(the bytes the loop would write when it consumes them in order). -/
def okJoin : List Chunk → List Nat
  | [] => []
  | Except.ok b :: r => b ++ okJoin r
  | Except.error _ :: r => okJoin r

/-- A chunk that carries bytes (no network error). -/
def chunkOk : Chunk → Bool
  | Except.ok _ => true
  | Except.error _ => false

/-- Number of bare-newline events in an output trace. -/
def newlineCount : List OutEvent → Nat
  | [] => 0
  | OutEvent.newline :: r => newlineCount r + 1
  | OutEvent.progress _ _ _ :: r => newlineCount r

/-- The `downloaded_bytes` values carried by the progress events of an
output trace, in emission order. -/
def outCounters : List OutEvent → List Nat
  | [] => []
  | OutEvent.progress _ d _ :: r => d :: outCounters r
  | OutEvent.newline :: r => outCounters r

/-- Running totals `d + |c₁|, d + |c₁| + |c₂|, …` of a list of written
chunks, starting from counter value `d`. -/
def cumSums (d : Nat) : List (List Nat) → List Nat
  | [] => []
  | c :: r => (d + c.length) :: cumSums (d + c.length) r

/-! ### Helper lemmas -/

theorem digitChar_headerValid : ∀ m : Nat, m < 10 → headerCharValid (Nat.digitChar m) = true := by
  decide

theorem toDigitsCore_headerValid (fuel : Nat) :
    ∀ (n : Nat) (ds : List Char), (∀ c ∈ ds, headerCharValid c = true) →
      ∀ c ∈ Nat.toDigitsCore 10 fuel n ds, headerCharValid c = true := by
  induction fuel with
  | zero => intro n ds hds c hc; exact hds c hc
  | succ fuel ih =>
    intro n ds hds c hc
    simp only [Nat.toDigitsCore] at hc
    have hdig : headerCharValid (Nat.digitChar (n % 10)) = true :=
      digitChar_headerValid _ (Nat.mod_lt _ (by omega))
    by_cases h : n / 10 = 0
    · rw [if_pos h] at hc
      rw [List.mem_cons] at hc
      rcases hc with hc | hc
      · exact hc ▸ hdig
      · exact hds c hc
    · rw [if_neg h] at hc
      refine ih (n / 10) (Nat.digitChar (n % 10) :: ds) ?_ c hc
      intro c' hc'
      rw [List.mem_cons] at hc'
      rcases hc' with hc' | hc'
      · exact hc' ▸ hdig
      · exact hds c' hc'

/-- The range string `bytes=<L>-` consists of legal header bytes for
every offset, so `HeaderValue::from_str` always succeeds on it. -/
theorem range_string_valid (fileSize : Nat) :
    headerValueFromStr (range_string fileSize) = some (range_string fileSize) := by
  unfold headerValueFromStr
  rw [if_pos]
  rw [List.all_eq_true]
  intro c hc
  unfold range_string at hc
  rw [List.mem_append, List.mem_append] at hc
  rcases hc with (hc | hc) | hc
  · exact (by decide : ∀ x ∈ "bytes=".toList, headerCharValid x = true) c hc
  · exact toDigitsCore_headerValid (fileSize + 1) fileSize []
      (by intro c' hc'; cases hc') c hc
  · rw [List.mem_singleton] at hc
    subst hc
    decide

theorem filled_width_eq (d t : Nat) : filled_width d t = 30 * d / t := by
  unfold filled_width
  rcases Nat.eq_zero_or_pos t with ht | ht
  · subst ht; simp
  · have h1 : (d : ℚ) / (t : ℚ) * 100 / 100 * 30 = ((30 * d : ℕ) : ℚ) / ((t : ℕ) : ℚ) := by
      push_cast; ring
    rw [h1, Rat.floor_natCast_div_natCast, ← Int.natCast_div, Int.toNat_natCast]

theorem floor_mul30_eq (d t : Nat) :
    (Int.floor ((d : ℚ) / (t : ℚ) * 30)).toNat = 30 * d / t := by
  rcases Nat.eq_zero_or_pos t with ht | ht
  · subst ht; simp
  · have h1 : (d : ℚ) / (t : ℚ) * 30 = ((30 * d : ℕ) : ℚ) / ((t : ℕ) : ℚ) := by
      push_cast; ring
    rw [h1, Rat.floor_natCast_div_natCast, ← Int.natCast_div, Int.toNat_natCast]

theorem cumSums_chain (ws : List (List Nat)) :
    ∀ d : Nat, List.Chain' (fun a b => a ≤ b) (d :: cumSums d ws) := by
  induction ws with
  | nil => intro d; simp [cumSums]
  | cons c r ih =>
    intro d
    rw [cumSums]
    exact List.Chain'.cons (by omega) (ih (d + c.length))

/-- General run lemma for the streaming-write loop: whatever makes it
stop (stream end, cancellation, chunk error, write error), the loop
appends some list `ws` of chunks to the file, increases the counter by
exactly the appended byte count, and the counters in its progress events
are the running totals of `ws`. -/
theorem stream_loop_run (cancel wf : Option Nat) (name : String) (total : Nat) :
    ∀ (chunks : List Chunk) (k d : Nat) (f : List Nat),
      ∃ ws : List (List Nat),
        (stream_loop cancel wf name total chunks k d f).file = f ++ ws.flatten ∧
        (stream_loop cancel wf name total chunks k d f).downloaded = d + ws.flatten.length ∧
        outCounters (stream_loop cancel wf name total chunks k d f).out = cumSums d ws := by
  intro chunks
  induction chunks with
  | nil =>
    intro k d f
    exact ⟨[], by simp [stream_loop, outCounters, cumSums]⟩
  | cons c rest ih =>
    intro k d f
    by_cases hcan : is_cancelled cancel k
    · exact ⟨[], by simp [stream_loop, hcan, outCounters, cumSums]⟩
    · cases c with
      | error e =>
        exact ⟨[], by simp [stream_loop, hcan, outCounters, cumSums]⟩
      | ok b =>
        by_cases hwf : wf = some k
        · exact ⟨[], by simp [stream_loop, hcan, hwf, outCounters, cumSums]⟩
        · obtain ⟨ws, hfile, hdl, hout⟩ := ih (k + 1) (d + b.length) (f ++ b)
          refine ⟨b :: ws, ?_, ?_, ?_⟩
          · simp only [stream_loop, if_neg hcan, if_neg hwf]
            simpa [List.append_assoc] using hfile
          · simp only [stream_loop, if_neg hcan, if_neg hwf]
            simpa [Nat.add_assoc] using hdl
          · simp only [stream_loop, if_neg hcan, if_neg hwf, update_progress, outCounters, cumSums]
            exact congrArg _ hout

/-- If the one-shot cancellation signal becomes set at poll index `k + c`
and the first `c` chunks are clean bytes with no write fault, the loop
writes exactly those `c` chunks, then observes the cancellation before
touching the in-flight chunk and stops successfully. -/
theorem stream_loop_cancel (name : String) (total : Nat) :
    ∀ (c : Nat) (chunks : List Chunk) (k d : Nat) (f : List Nat),
      c < chunks.length → (chunks.take c).all chunkOk = true →
      (stream_loop (some (k + c)) none name total chunks k d f).result = Except.ok () ∧
      (stream_loop (some (k + c)) none name total chunks k d f).file =
        f ++ okJoin (chunks.take c) ∧
      (stream_loop (some (k + c)) none name total chunks k d f).downloaded =
        d + (okJoin (chunks.take c)).length ∧
      (stream_loop (some (k + c)) none name total chunks k d f).writes = c := by
  intro c
  induction c with
  | zero =>
    intro chunks k d f hlen _hok
    cases chunks with
    | nil => simp at hlen
    | cons ch rest => simp [stream_loop, is_cancelled, okJoin]
  | succ c ih =>
    intro chunks k d f hlen hok
    cases chunks with
    | nil => simp at hlen
    | cons ch rest =>
      rw [List.take_succ_cons, List.all_cons, Bool.and_eq_true] at hok
      obtain ⟨hch, hok⟩ := hok
      cases ch with
      | error e => simp [chunkOk] at hch
      | ok b =>
        have hk : k + (c + 1) = k + 1 + c := by omega
        rw [hk]
        have hcan : is_cancelled (some (k + 1 + c)) k = false := by
          simp [is_cancelled]
          omega
        obtain ⟨hres, hfile, hdl, hw⟩ :=
          ih rest (k + 1) (d + b.length) (f ++ b) (by simpa using hlen) hok
        simp only [stream_loop, hcan, Bool.false_eq_true, if_false, List.take_succ_cons, okJoin,
          reduceCtorEq]
        refine ⟨hres, ?_, ?_, ?_⟩
        · rw [hfile, List.append_assoc]
        · rw [hdl, List.length_append]
          omega
        · rw [hw]

/-- With clean chunks and no write fault the loop always ends in
success, whether or not (and whenever) cancellation fires. -/
theorem stream_loop_ok (cancel : Option Nat) (name : String) (total : Nat) :
    ∀ (chunks : List Chunk) (k d : Nat) (f : List Nat),
      chunks.all chunkOk = true →
      (stream_loop cancel none name total chunks k d f).result = Except.ok () := by
  intro chunks
  induction chunks with
  | nil => intro k d f _; rfl
  | cons c rest ih =>
    intro k d f hok
    rw [List.all_cons, Bool.and_eq_true] at hok
    obtain ⟨hch, hok⟩ := hok
    by_cases hcan : is_cancelled cancel k
    · simp [stream_loop, hcan]
    · cases c with
      | error e => simp [chunkOk] at hch
      | ok b =>
        simpa [stream_loop, hcan] using ih (k + 1) (d + b.length) (f ++ b) hok

/-- The loop itself never prints a bare newline: all its output events
are progress updates. -/
theorem stream_loop_newlineCount (cancel wf : Option Nat) (name : String) (total : Nat) :
    ∀ (chunks : List Chunk) (k d : Nat) (f : List Nat),
      newlineCount (stream_loop cancel wf name total chunks k d f).out = 0 := by
  intro chunks
  induction chunks with
  | nil => intro k d f; rfl
  | cons c rest ih =>
    intro k d f
    by_cases hcan : is_cancelled cancel k
    · simp [stream_loop, hcan, newlineCount]
    · cases c with
      | error e => simp [stream_loop, hcan, newlineCount]
      | ok b =>
        by_cases hwf : wf = some k
        · simp [stream_loop, hcan, hwf, newlineCount]
        · simpa [stream_loop, hcan, hwf, update_progress, newlineCount] using
            ih (k + 1) (d + b.length) (f ++ b)

theorem newlineCount_append (a b : List OutEvent) :
    newlineCount (a ++ b) = newlineCount a + newlineCount b := by
  induction a with
  | nil => simp [newlineCount]
  | cons e r ih =>
    match e with
    | OutEvent.newline => simp [newlineCount, ih]; omega
    | OutEvent.progress n d t => simpa [newlineCount] using ih

/-- Every run of `start_download` sends exactly one plain GET. -/
theorem start_download_requests (env : Env) :
    (start_download env).requests = [Request.plain] := by
  unfold start_download
  cases h : env.plainResp with
  | error e => simp
  | ok resp =>
    by_cases hc : env.faults.createFail
    · simp [hc]
    · simp only [hc, Bool.false_eq_true, if_false]
      cases hres : (stream_loop env.cancelFrom env.faults.writeFailAt
          (file_name env.outputPath) (get_file_size resp) resp.chunks 0 0 []).result with
      | ok u => simp [hres]
      | error e => simp [hres]

/-- Every run of `continue_download` sends at most one request (the
range GET), and none when it fails before reaching it. -/
theorem continue_download_requests_le (env : Env) :
    (continue_download env).requests.length ≤ 1 := by
  unfold continue_download
  cases hf : env.file with
  | none => simp
  | some f =>
    by_cases h2 : env.faults.openFail2
    · simp [h2]
    · simp only [h2, Bool.false_eq_true, if_false]
      by_cases h3 : env.faults.metadataFail2
      · simp [h3]
      · simp only [h3, Bool.false_eq_true, if_false]
        cases hh : headerValueFromStr (range_string f.length) with
        | none => simp
        | some v =>
          cases hr : env.rangeResp f.length with
          | error e => simp
          | ok resp =>
            by_cases ha : env.faults.appendOpenFail
            · simp [ha]
            · simp only [ha, Bool.false_eq_true, if_false]
              cases hres : (stream_loop env.cancelFrom env.faults.writeFailAt
                  (file_name env.outputPath) (get_file_size resp + f.length)
                  resp.chunks 0 f.length f).result with
              | ok u => simp [hres]
              | error e => simp [hres]

/-- When `continue_download` reaches its range GET without filesystem
faults it sends exactly that one request, whatever the stream does. -/
theorem continue_download_requests_one (env : Env) (f : List Nat) (resp : NetResponse)
    (hf : env.file = some f) (hfa : env.faults = noFaults)
    (hr : env.rangeResp f.length = Except.ok resp) :
    (continue_download env).requests = [Request.range f.length] := by
  simp only [continue_download, hf, hfa, noFaults, Bool.false_eq_true, if_false,
    range_string_valid, hr]
  split
  · rfl
  · rfl

/-! ### Claims -/

/-- Server response used for the C1 counterexample: declared remaining
length 1 (header bytes `"1"`), one body chunk `[9]`. -/
def c1resp : NetResponse := ⟨some [49], [Except.ok [9]]⟩

/-- C1 counterexample world: a 1-byte partial file on disk and a server
whose range response makes `total = 2`, i.e. a genuine resume. -/
def c1env : Env :=
  ⟨some [7], "out.bin", Except.error (), fun _ => Except.ok c1resp, none, noFaults⟩

/-- C1 counterexample: in a resume situation (existing length `L = 1`,
server total `2`, so `0 < L < total`) a single invocation sends TWO
range requests — the probe in `download_file` and a second identical
range GET in `continue_download`, whose body (not the probe's) is
streamed — refuting "a resume makes only the single probe request". -/
theorem c1_single_probe_cex :
    c1env.file = some [7] ∧ get_file_size c1resp = 1 ∧
    (download_file c1env).result = Except.ok () ∧
    (download_file c1env).requests = [Request.range 1, Request.range 1] := by
  decide

/-- C1 amended: every invocation sends at most two requests, and a
resume (`0 < L < total`) sends exactly two — the probe plus the
second range GET of `continue_download`. -/
theorem c1_request_count (env : Env) :
    (download_file env).requests.length ≤ 2 ∧
    (∀ f resp, env.file = some f → env.faults = noFaults →
      env.rangeResp f.length = Except.ok resp →
      0 < f.length → 0 < get_file_size resp →
      (download_file env).requests = [Request.range f.length, Request.range f.length]) := by
  constructor
  · unfold download_file
    cases hf : env.file with
    | none => simp [start_download_requests env]
    | some f =>
      by_cases ho : env.faults.openFail
      · simp [ho]
      · simp only [ho, Bool.false_eq_true, if_false]
        by_cases hm : env.faults.metadataFail
        · simp [hm]
        · simp only [hm, Bool.false_eq_true, if_false]
          cases hh : headerValueFromStr (range_string f.length) with
          | none => simp
          | some v =>
            cases hr : env.rangeResp f.length with
            | error e => simp
            | ok resp =>
              by_cases h1 : get_file_size resp + f.length = f.length
              · simp [h1]
              · simp only [h1, if_false]
                by_cases h2 : f.length > get_file_size resp + f.length ∨ f.length = 0
                · rw [if_pos h2]
                  simp [start_download_requests env]
                · simp only [h2, if_false]
                  have := continue_download_requests_le env
                  simp only [List.length_cons]
                  omega
  · intro f resp hf hfa hr hL hR
    have hd : get_file_size resp + f.length ≠ f.length := by omega
    have hd2 : ¬(f.length > get_file_size resp + f.length ∨ f.length = 0) := by omega
    simp only [download_file, hf, hfa, noFaults, Bool.false_eq_true, if_false,
      range_string_valid, hr, hd, hd2]
    rw [continue_download_requests_one env f resp hf hfa hr]

/-- C1 witness: the amended resume clause at the concrete resume world. -/
theorem c1_request_count_witness :
    (download_file c1env).requests = [Request.range 1, Request.range 1] :=
  (c1_request_count c1env).2 [7] c1resp rfl rfl rfl (by decide) (by decide)

/-- C2: in a world whose streaming loop observes the cancellation signal
at poll `c` after `c` clean chunks were written, the invocation (fresh or
resume) stops with success, writes exactly those `c` chunks and leaves
the file at exactly the bytes written so far — the in-flight chunk is
dropped whole. -/
theorem c2_cancellation_safety (env : Env) (resp : NetResponse) (c : Nat)
    (hfa : env.faults = noFaults)
    (hcancel : env.cancelFrom = some c)
    (hlt : c < resp.chunks.length)
    (hok : (resp.chunks.take c).all chunkOk = true) :
    (env.file = none → env.plainResp = Except.ok resp →
      (download_file env).result = Except.ok () ∧
      (download_file env).file = some (okJoin (resp.chunks.take c)) ∧
      (download_file env).writes = c) ∧
    (∀ f, env.file = some f → 0 < f.length →
      env.rangeResp f.length = Except.ok resp → 0 < get_file_size resp →
      (download_file env).result = Except.ok () ∧
      (download_file env).file = some (f ++ okJoin (resp.chunks.take c)) ∧
      (download_file env).writes = c) := by
  constructor
  · intro hf hp
    obtain ⟨hres, hfile, hdl, hw⟩ := stream_loop_cancel (file_name env.outputPath)
      (get_file_size resp) c resp.chunks 0 0 [] hlt hok
    simp only [Nat.zero_add] at hres hfile hdl hw
    simp only [download_file, hf, start_download, hp, hfa, noFaults,
      Bool.false_eq_true, if_false, hcancel, hres]
    rw [hfile, hw]
    simp
  · intro f hf hL hr hR
    have hd : get_file_size resp + f.length ≠ f.length := by omega
    have hd2 : ¬(f.length > get_file_size resp + f.length ∨ f.length = 0) := by omega
    obtain ⟨hres, hfile, hdl, hw⟩ := stream_loop_cancel (file_name env.outputPath)
      (get_file_size resp + f.length) c resp.chunks 0 f.length f hlt hok
    simp only [Nat.zero_add] at hres hfile hdl hw
    simp only [download_file, hf, hfa, noFaults, Bool.false_eq_true, if_false,
      range_string_valid, hr, hd, hd2, continue_download, hcancel, hres]
    rw [hfile, hw]
    simp

/-- Response for the C2 witness: declared length `"2"`, two one-byte
chunks. -/
def c2resp : NetResponse := ⟨some [50], [Except.ok [4], Except.ok [5]]⟩

/-- C2 witness world: fresh download cancelled at poll 1. -/
def c2env : Env := ⟨none, "a/b.bin", Except.ok c2resp, fun _ => Except.error (), some 1, noFaults⟩

/-- C2 witness: cancelling after the first of two chunks leaves exactly
that chunk on disk and returns success. -/
theorem c2_cancellation_safety_witness :
    (download_file c2env).result = Except.ok () ∧
    (download_file c2env).file = some (okJoin (c2resp.chunks.take 1)) ∧
    (download_file c2env).writes = 1 :=
  (c2_cancellation_safety c2env c2resp 1 rfl rfl (by decide) (by decide)).1 rfl rfl

/-- C3: when the server's declared remaining length `R` added to the
existing length `L` equals `L`, the invocation returns success at once:
one probe request, no body read, no write, no output, file untouched. -/
theorem c3_already_complete (env : Env) (f : List Nat) (resp : NetResponse)
    (hf : env.file = some f)
    (ho : env.faults.openFail = false) (hm : env.faults.metadataFail = false)
    (hr : env.rangeResp f.length = Except.ok resp)
    (hz : get_file_size resp + f.length = f.length) :
    (download_file env).result = Except.ok () ∧
    (download_file env).file = some f ∧
    (download_file env).requests = [Request.range f.length] ∧
    (download_file env).reads = 0 ∧ (download_file env).writes = 0 ∧
    (download_file env).out = [] := by
  simp only [download_file, hf, ho, hm, Bool.false_eq_true, if_false,
    range_string_valid, hr, hz, if_pos]
  simp

/-- C3 witness world: a 3-byte file and a server that declares no
content length for the range from offset 3 (R = 0, so total = L). -/
def c3env : Env :=
  ⟨some [1, 2, 3], "d.bin", Except.error (), fun _ => Except.ok ⟨none, []⟩, none, noFaults⟩

/-- C3 witness. -/
theorem c3_already_complete_witness :
    (download_file c3env).result = Except.ok () ∧
    (download_file c3env).file = some [1, 2, 3] ∧
    (download_file c3env).requests = [Request.range 3] ∧
    (download_file c3env).reads = 0 ∧ (download_file c3env).writes = 0 ∧
    (download_file c3env).out = [] :=
  c3_already_complete c3env [1, 2, 3] ⟨none, []⟩ rfl rfl rfl rfl (by decide)

/-- On the fresh path `start_download` never reads the pre-existing
file, so (plain GET succeeding, creation succeeding) its outcome does
not depend on `Env.file`. -/
theorem start_download_congr (env : Env) (g : Option (List Nat)) (resp : NetResponse)
    (hp : env.plainResp = Except.ok resp) (hc : env.faults.createFail = false) :
    start_download { env with file := g } = start_download env := by
  simp only [start_download, hp, hc, Bool.false_eq_true, if_false]

/-- C4: an inconsistent on-disk file (`L > total` or `L == 0`, with
`total ≠ L`) restarts as a fresh download: the invocation's outcome
(result, final file, output, reads, writes) equals that of the same
world with no file, it sends the probe followed by exactly the plain
GET that the no-file case sends, truncating and streaming from offset
0. -/
theorem c4_restart_equals_fresh (env : Env) (f : List Nat) (resp presp : NetResponse)
    (hf : env.file = some f) (hfa : env.faults = noFaults)
    (hr : env.rangeResp f.length = Except.ok resp)
    (hp : env.plainResp = Except.ok presp)
    (hne : get_file_size resp + f.length ≠ f.length)
    (hre : f.length > get_file_size resp + f.length ∨ f.length = 0) :
    (download_file env).result = (download_file { env with file := none }).result ∧
    (download_file env).file = (download_file { env with file := none }).file ∧
    (download_file env).out = (download_file { env with file := none }).out ∧
    (download_file env).reads = (download_file { env with file := none }).reads ∧
    (download_file env).writes = (download_file { env with file := none }).writes ∧
    (download_file env).requests =
      Request.range f.length :: (download_file { env with file := none }).requests ∧
    (download_file { env with file := none }).requests = [Request.plain] := by
  have hpc : env.faults.createFail = false := by rw [hfa]; rfl
  have h0 : download_file { env with file := none } = start_download env := by
    have h1 : download_file { env with file := none } =
        start_download { env with file := none } := by
      simp only [download_file]
    rw [h1, start_download_congr env none presp hp hpc]
  have hmain : download_file env =
      { start_download env with
          requests := Request.range f.length :: (start_download env).requests } := by
    simp only [download_file, hf, hfa, noFaults, Bool.false_eq_true, if_false,
      range_string_valid, hr, hne, hre, if_true]
  rw [hmain, h0]
  exact ⟨rfl, rfl, rfl, rfl, rfl, rfl, start_download_requests env⟩

/-- C4 witness plain response: total `"1"`, one chunk `[8]`. -/
def c4presp : NetResponse := ⟨some [49], [Except.ok [8]]⟩

/-- C4 witness world: an empty (length 0) on-disk file, a range probe
declaring 1 remaining byte, and a fresh-download response. -/
def c4env : Env :=
  ⟨some [], "e.bin", Except.ok c4presp, fun _ => Except.ok ⟨some [49], [Except.ok [8]]⟩,
    none, noFaults⟩

/-- C4 witness. -/
theorem c4_restart_equals_fresh_witness :
    (download_file c4env).result = (download_file { c4env with file := none }).result ∧
    (download_file c4env).file = (download_file { c4env with file := none }).file ∧
    (download_file c4env).out = (download_file { c4env with file := none }).out ∧
    (download_file c4env).reads = (download_file { c4env with file := none }).reads ∧
    (download_file c4env).writes = (download_file { c4env with file := none }).writes ∧
    (download_file c4env).requests =
      Request.range 0 :: (download_file { c4env with file := none }).requests ∧
    (download_file { c4env with file := none }).requests = [Request.plain] :=
  c4_restart_equals_fresh c4env [] ⟨some [49], [Except.ok [8]]⟩ c4presp
    rfl rfl rfl rfl (by decide) (by decide)

/-- C5: over any run of the streaming-write loop, from any starting
counter (0 for fresh, `L` for resume), the loop appends exactly the
chunks it writes, the counter ends at its start plus the appended byte
count, the counter value reported at each observation point (progress
update) is the running total of the bytes written so far, and the
reported sequence is monotonically non-decreasing from the start
value. -/
theorem c5_counter_monotone (cancel wf : Option Nat) (name : String) (total : Nat)
    (chunks : List Chunk) (k d : Nat) (f : List Nat) :
    ∃ ws : List (List Nat),
      (stream_loop cancel wf name total chunks k d f).file = f ++ ws.flatten ∧
      (stream_loop cancel wf name total chunks k d f).downloaded = d + ws.flatten.length ∧
      outCounters (stream_loop cancel wf name total chunks k d f).out = cumSums d ws ∧
      List.Chain' (fun a b => a ≤ b) (d :: cumSums d ws) := by
  obtain ⟨ws, h1, h2, h3⟩ := stream_loop_run cancel wf name total chunks k d f
  exact ⟨ws, h1, h2, h3, cumSums_chain ws d⟩

/-- `continue_download` never prints a bare newline on any path: there
is no `println!()` after its loop. -/
theorem continue_download_newlineCount (env : Env) :
    newlineCount (continue_download env).out = 0 := by
  unfold continue_download
  cases hf : env.file with
  | none => rfl
  | some f =>
    by_cases h2 : env.faults.openFail2
    · simp [h2, newlineCount]
    · simp only [h2, Bool.false_eq_true, if_false]
      by_cases h3 : env.faults.metadataFail2
      · simp [h3, newlineCount]
      · simp only [h3, Bool.false_eq_true, if_false]
        cases hh : headerValueFromStr (range_string f.length) with
        | none => rfl
        | some v =>
          cases hr : env.rangeResp f.length with
          | error e => rfl
          | ok resp =>
            by_cases ha : env.faults.appendOpenFail
            · simp [ha, newlineCount]
            · simp only [ha, Bool.false_eq_true, if_false]
              cases hres : (stream_loop env.cancelFrom env.faults.writeFailAt
                  (file_name env.outputPath) (get_file_size resp + f.length)
                  resp.chunks 0 f.length f).result with
              | ok u =>
                simp only [hres]
                exact stream_loop_newlineCount env.cancelFrom env.faults.writeFailAt
                  (file_name env.outputPath) (get_file_size resp + f.length)
                  resp.chunks 0 f.length f
              | error e =>
                simp only [hres]
                exact stream_loop_newlineCount env.cancelFrom env.faults.writeFailAt
                  (file_name env.outputPath) (get_file_size resp + f.length)
                  resp.chunks 0 f.length f

/-- Response for the C6 counterexample: declared remaining length `"1"`,
one chunk. -/
def c6resp : NetResponse := ⟨some [49], [Except.ok [9]]⟩

/-- C6 counterexample world: resume of a 1-byte file, one more byte to
fetch, no cancellation, no faults. -/
def c6env : Env :=
  ⟨some [7], "f.bin", Except.error (), fun _ => Except.ok c6resp, none, noFaults⟩

/-- C6 counterexample: this resume transfer reaches the streaming-write
loop (two stream reads, one chunk written) and completes successfully,
yet zero trailing newlines are emitted — `continue_download` has no
`println!()` after its loop, refuting "one trailing newline for every
transfer, fresh or resume". -/
theorem c6_resume_no_newline_cex :
    (download_file c6env).result = Except.ok () ∧
    (download_file c6env).reads = 2 ∧ (download_file c6env).writes = 1 ∧
    newlineCount (download_file c6env).out = 0 := by
  decide

/-- C6 amended: exactly one trailing newline is emitted after the
fresh-download loop ends without error, and none after the resume
loop. -/
theorem c6_trailing_newline (env : Env) :
    (∀ resp, env.file = none → env.plainResp = Except.ok resp →
      env.faults = noFaults → resp.chunks.all chunkOk = true →
      newlineCount (download_file env).out = 1) ∧
    (∀ f resp, env.file = some f → env.faults = noFaults →
      env.rangeResp f.length = Except.ok resp →
      0 < f.length → 0 < get_file_size resp →
      newlineCount (download_file env).out = 0) := by
  constructor
  · intro resp hf hp hfa hok
    have hres := stream_loop_ok env.cancelFrom (file_name env.outputPath)
      (get_file_size resp) resp.chunks 0 0 [] hok
    simp only [download_file, hf, start_download, hp, hfa, noFaults,
      Bool.false_eq_true, if_false, hres]
    rw [newlineCount_append, stream_loop_newlineCount]
    rfl
  · intro f resp hf hfa hr hL hR
    have hd : get_file_size resp + f.length ≠ f.length := by omega
    have hd2 : ¬(f.length > get_file_size resp + f.length ∨ f.length = 0) := by omega
    have hout : (download_file env).out = (continue_download env).out := by
      simp only [download_file, hf, hfa, noFaults, Bool.false_eq_true, if_false,
        range_string_valid, hr, hd, hd2]
    rw [hout]
    exact continue_download_newlineCount env

/-- Response for the C6 witness: a fresh download of one clean chunk. -/
def c6wresp : NetResponse := ⟨some [49], [Except.ok [3]]⟩

/-- C6 witness world: a fresh download that completes cleanly. -/
def c6wenv : Env :=
  ⟨none, "g.bin", Except.ok c6wresp, fun _ => Except.error (), none, noFaults⟩

/-- C6 witness: the fresh clause at a concrete clean world. -/
theorem c6_trailing_newline_witness :
    newlineCount (download_file c6wenv).out = 1 :=
  (c6_trailing_newline c6wenv).1 c6wresp rfl rfl rfl (by decide)

/-- C7: with `total_bytes > 0`, inputs with `downloaded > total` can
drive the filled bar width past 30 glyphs, making the `usize`
computation `30 - filled_width` underflow (it is negative as an
integer), while for every `0 < downloaded ≤ total` the filled width is
`⌊downloaded / total * 30⌋ ≤ 30` and the subtraction is safe. -/
theorem c7_bar_width_underflow :
    (∃ d t : Nat, 0 < t ∧ t < d ∧ 30 < filled_width d t ∧ empty_width d t < 0) ∧
    (∀ d t : Nat, 0 < d → d ≤ t →
      filled_width d t = (Int.floor ((d : ℚ) / (t : ℚ) * 30)).toNat ∧
      filled_width d t ≤ 30 ∧ 0 ≤ empty_width d t) := by
  constructor
  · refine ⟨2000, 1000, by omega, by omega, ?_, ?_⟩
    · rw [filled_width_eq]
      decide
    · unfold empty_width
      rw [filled_width_eq]
      decide
  · intro d t hd hdt
    have ht : 0 < t := by omega
    have hle : 30 * d / t ≤ 30 := by
      calc 30 * d / t ≤ 30 * t / t := Nat.div_le_div_right (Nat.mul_le_mul_left 30 hdt)
        _ = 30 := Nat.mul_div_cancel 30 ht
    refine ⟨?_, ?_, ?_⟩
    · rw [filled_width_eq, floor_mul30_eq]
    · rw [filled_width_eq]
      exact hle
    · unfold empty_width
      rw [filled_width_eq]
      omega

/-- C7 witness: the safe clause at `downloaded = 1`, `total = 2`. -/
theorem c7_bar_width_underflow_witness :
    filled_width 1 2 = (Int.floor ((1 : ℚ) / (2 : ℚ) * 30)).toNat ∧
    filled_width 1 2 ≤ 30 ∧ 0 ≤ empty_width 1 2 :=
  c7_bar_width_underflow.2 1 2 (by decide) (by decide)

/-- C8: on an existing output path, a failed `File::open` or metadata
read surfaces as the io error kind with zero requests sent; the range
header value for any offset always encodes successfully (which is why
the structurally-handled invalid-header branch — returning the distinct
`InvalidHeaderValue` error with zero requests sent — never fires); and
a network fault on the probe surfaces as the distinct `RequestFailed`
kind, aborting immediately with nothing read or written. -/
theorem c8_error_kinds (env : Env) (f : List Nat) (hf : env.file = some f) :
    (env.faults.openFail = true →
      (download_file env).result = Except.error Error.ioError ∧
      (download_file env).requests = [] ∧ (download_file env).writes = 0) ∧
    (headerValueFromStr (range_string f.length) = some (range_string f.length)) ∧
    (env.faults.openFail = false → env.faults.metadataFail = false →
      headerValueFromStr (range_string f.length) = none →
      (download_file env).result = Except.error Error.InvalidHeaderValue ∧
      (download_file env).requests = []) ∧
    (env.faults.openFail = false → env.faults.metadataFail = false →
      env.rangeResp f.length = Except.error () →
      (download_file env).result = Except.error Error.RequestFailed ∧
      (download_file env).requests = [Request.range f.length] ∧
      (download_file env).writes = 0 ∧ (download_file env).reads = 0) := by
  refine ⟨?_, range_string_valid f.length, ?_, ?_⟩
  · intro ho
    simp [download_file, hf, ho]
  · intro ho hm hnone
    rw [range_string_valid f.length] at hnone
    cases hnone
  · intro ho hm hr
    simp [download_file, hf, ho, hm, range_string_valid, hr]

/-- C8 witness world A: `File::open` fails on the existing path. -/
def c8envA : Env :=
  ⟨some [], "h.bin", Except.error (), fun _ => Except.error (), none,
    ⟨true, false, false, false, false, false, none⟩⟩

/-- C8 witness world B: the probe request fails at the network layer. -/
def c8envB : Env :=
  ⟨some [1], "h.bin", Except.error (), fun _ => Except.error (), none, noFaults⟩

/-- C8 witness: the io clause at world A and the request-failure clause
at world B. -/
theorem c8_error_kinds_witness :
    ((download_file c8envA).result = Except.error Error.ioError ∧
      (download_file c8envA).requests = [] ∧ (download_file c8envA).writes = 0) ∧
    ((download_file c8envB).result = Except.error Error.RequestFailed ∧
      (download_file c8envB).requests = [Request.range 1] ∧
      (download_file c8envB).writes = 0 ∧ (download_file c8envB).reads = 0) :=
  ⟨(c8_error_kinds c8envA [] rfl).1 rfl,
    (c8_error_kinds c8envB [1] rfl).2.2.2 rfl rfl rfl⟩

/-- C9: determining the total size never fails — an absent
content-length header, a header whose bytes are not visible ASCII, and
a header that does not parse as `u64` all yield 0 (unknown size), never
an error. -/
theorem c9_total_size_never_fails (resp : NetResponse) :
    (resp.contentLength = none → get_file_size resp = 0) ∧
    (∀ cl, resp.contentLength = some cl → to_str cl = none →
      get_file_size resp = 0) ∧
    (∀ cl s, resp.contentLength = some cl → to_str cl = some s →
      parseU64 s = none → get_file_size resp = 0) := by
  refine ⟨?_, ?_, ?_⟩
  · intro h
    simp [get_file_size, h]
  · intro cl hcl hts
    simp [get_file_size, hcl, hts]
    decide
  · intro cl s hcl hts hp
    simp [get_file_size, hcl, hts, hp]

/-- C9 witness: an absent header and a non-numeric header (`"A"`,
byte 65) both yield total size 0. -/
theorem c9_total_size_never_fails_witness :
    get_file_size ⟨none, []⟩ = 0 ∧ get_file_size ⟨some [65], []⟩ = 0 :=
  ⟨(c9_total_size_never_fails ⟨none, []⟩).1 rfl,
    (c9_total_size_never_fails ⟨some [65], []⟩).2.2 [65] ['A'] rfl (by decide) (by decide)⟩

/-- C10: an existing empty file whose range probe declares no (or zero)
remaining length hits the already-complete check (`total == L` with
both 0) before the empty-file restart rule, so the invocation returns
success with only the probe request, no fresh GET, no read, no
write. -/
theorem c10_empty_file_zero_total (env : Env) (resp : NetResponse)
    (hf : env.file = some [])
    (ho : env.faults.openFail = false) (hm : env.faults.metadataFail = false)
    (hr : env.rangeResp 0 = Except.ok resp)
    (hz : get_file_size resp = 0) :
    (download_file env).result = Except.ok () ∧
    (download_file env).file = some [] ∧
    (download_file env).requests = [Request.range 0] ∧
    (download_file env).reads = 0 ∧ (download_file env).writes = 0 := by
  simp only [download_file, hf, ho, hm, Bool.false_eq_true, if_false,
    range_string_valid, List.length_nil, hr, hz, Nat.add_zero, eq_self_iff_true, if_true]
  simp

/-- C10 witness world: an empty file and a server answering the range
probe with no content length. -/
def c10env : Env :=
  ⟨some [], "i.bin", Except.error (), fun _ => Except.ok ⟨none, [Except.ok [1]]⟩,
    none, noFaults⟩

/-- C10 witness. -/
theorem c10_empty_file_zero_total_witness :
    (download_file c10env).result = Except.ok () ∧
    (download_file c10env).file = some [] ∧
    (download_file c10env).requests = [Request.range 0] ∧
    (download_file c10env).reads = 0 ∧ (download_file c10env).writes = 0 :=
  c10_empty_file_zero_total c10env ⟨none, [Except.ok [1]]⟩ rfl rfl rfl rfl rfl

end Downer
